import Mathlib

/-!
Verification of the MantraLekhan grid store and page renderer
(src/frontend/src/App.jsx) against its specification.

The Document is the `pages` state: a list of pages, each a list of cell
strings.  Persisted values are JSON, modelled by the `Json` inductive.
Stateful handlers are embedded as pure functions from the current pages
value (plus the exogenous inputs they read: confirm dialogs, key kind,
render success) to the new pages value and their visible output.
-/

namespace MantraLekhan

/-- `const cellsPerPage = 100` (App.jsx line 6). -/
def cellsPerPage : Nat := 100

/-- `const columns = 5` (App.jsx line 7). -/
def columns : Nat := 5

/-- `const maxPages = 5` (App.jsx line 8). -/
def maxPages : Nat := 5

/-- A fresh blank page: `Array(cellsPerPage).fill('')`. -/
def blankPage : List String := List.replicate cellsPerPage ""

/-- JSON values, as produced by `JSON.parse` of the persisted slot. -/
inductive Json where
  | null
  | bool (b : Bool)
  | num (n : Int)
  | str (s : String)
  | arr (xs : List Json)

/-- `Array.isArray(p) && p.length === cellsPerPage` for one candidate page. -/
def isPageArray : Json → Bool
  | .arr cells => cells.length == cellsPerPage
  | _ => false

/-- The shape check of `initializePages` (App.jsx line 88):
`Array.isArray(parsed) && parsed.length > 0 && parsed.every(p => Array.isArray(p) && p.length === cellsPerPage)`. -/
def isValidSaved : Json → Bool
  | .arr pages => decide (0 < pages.length) && pages.all isPageArray
  | _ => false

/-- The fallback document `[Array(cellsPerPage).fill('')]`, as a JSON value. -/
def blankDocJson : Json := .arr [.arr (List.replicate cellsPerPage (.str ""))]

/-- Number of pages of a JSON document value. -/
def jsonPageCount : Json → Nat
  | .arr pages => pages.length
  | _ => 0

/-- Embeds `initializePages` (App.jsx lines 84-95).  The input models the
persisted slot: `none` when `localStorage.getItem` returns null (the code then
parses nothing and the shape check fails on `null`), `some none` when
`JSON.parse` throws, and `some (some j)` when it parses to the value `j`. -/
def initPages : Option (Option Json) → Json
  | some (some j) => if isValidSaved j then j else blankDocJson
  | _ => blankDocJson

/-- Embeds `handleChange` (App.jsx lines 103-107): pages with cell
`(pageIndex, cellIndex)` overwritten by `value`. -/
def editCell (pages : List (List String)) (pageIndex cellIndex : Nat)
    (value : String) : List (List String) :=
  pages.set pageIndex ((pages.getD pageIndex []).set cellIndex value)

/-- Embeds `addPage` (App.jsx lines 119-126).  Second component is `true`
when the add was rejected (the `alert` branch, which returns without
touching the pages). -/
def addPage (pages : List (List String)) : List (List String) × Bool :=
  if maxPages ≤ pages.length then (pages, true)
  else (pages ++ [blankPage], false)

/-- Embeds `removePage` (App.jsx lines 128-134).  `confirmDelete` is the
result of `window.confirm`; `splice(index, 1)` is `take index ++ drop (index+1)`. -/
def removePage (pages : List (List String)) (index : Nat)
    (confirmDelete : Bool) : List (List String) :=
  if confirmDelete then
    let newPages := pages.take index ++ pages.drop (index + 1)
    if newPages.isEmpty then [blankPage] else newPages
  else pages

/-- Embeds `resetAll` (App.jsx lines 136-140). -/
def resetAll (pages : List (List String)) (confirmReset : Bool) :
    List (List String) :=
  if confirmReset then [blankPage] else pages

/-- Embeds the arithmetic of `handleKeyDown` (App.jsx lines 112-113):
the next cell reference `(nextPageIndex, nextIndex)`. -/
def nextCellRef (pageIndex cellIndex : Nat) : Nat × Nat :=
  (pageIndex + (cellIndex + 1) / cellsPerPage, (cellIndex + 1) % cellsPerPage)

/-- Embeds `handleKeyDown` (App.jsx lines 109-117).  On a non-Enter key
nothing happens.  On Enter the handler computes the next cell reference and
focuses the input `#cell-{nextPageIndex}-{nextIndex}`; that input exists in
the DOM exactly when `nextPageIndex` is an existing page index (every page
renders inputs for all `cellsPerPage` cells and `nextIndex` is always in
range).  The pages state is returned unchanged; the second component is the
focus target, `none` when no focus move happens. -/
def handleKeyDown (pages : List (List String)) (pageIndex cellIndex : Nat)
    (isEnterKey : Bool) : List (List String) × Option (Nat × Nat) :=
  if isEnterKey then
    let next := nextCellRef pageIndex cellIndex
    (pages, if next.1 < pages.length then some next else none)
  else (pages, none)

/-- One rendered grid slot (App.jsx line 71): `page[cellIndex] || ' '`.
An empty string (and an out-of-range read, which yields `undefined`) is
falsy in JavaScript, so it renders as a single space. -/
def renderCellText (page : List String) (i : Nat) : String :=
  let c := page.getD i ""
  if c = "" then " " else c

/-- The header label rendered on every print page (App.jsx line 61). -/
def headerLabel : String := "જય સ્વામિનારાયણ"

/-- One print page of the rendered PDF: header text, page-number
annotation, and the grid of rows of cell texts. -/
structure PrintPage where
  header : String
  pageNumber : Nat
  grid : List (List String)

/-- Default used for out-of-range reads of the rendered page list. -/
def noPage : PrintPage := ⟨"", 0, []⟩

/-- One `<Page>` of `MantraPDF` (App.jsx lines 60-78): the header, the
annotation `Page {pageIndex + 1}`, and 20 rows of 5 cells where the cell at
row `r`, column `c` shows `renderCellText page (r * 5 + c)`. -/
def renderPage (page : List String) (pageIndex : Nat) : PrintPage :=
  { header := headerLabel
    pageNumber := pageIndex + 1
    grid := (List.range 20).map fun r =>
      (List.range 5).map fun c => renderCellText page (r * 5 + c) }

/-- Embeds `MantraPDF` (App.jsx lines 57-81): one print page per page of
the document, in order, each rendered with its index. -/
def MantraPDF (pages : List (List String)) : List PrintPage :=
  (List.range pages.length).map fun i => renderPage (pages.getD i []) i

/-- Embeds `downloadPDF` (App.jsx lines 142-150).  `renderOk` models
whether `pdf(...).toBlob()` succeeds; the handler never calls `setPages`,
so the pages state is returned unchanged, together with the rendered
output (`none` when rendering fails). -/
def downloadPDF (pages : List (List String)) (renderOk : Bool) :
    List (List String) × Option (List PrintPage) :=
  (pages, if renderOk then some (MantraPDF pages) else none)

/-- The Document shape invariant of the spec: between 1 and `maxPages`
pages, each of exactly `cellsPerPage` cells. -/
def ValidDoc (pages : List (List String)) : Prop :=
  1 ≤ pages.length ∧ pages.length ≤ maxPages ∧
    ∀ p ∈ pages, p.length = cellsPerPage

instance (pages : List (List String)) : Decidable (ValidDoc pages) := by
  unfold ValidDoc; infer_instance

/-! Theorems -/

/-- C1: restore returns the persisted value unchanged when it passes the
shape check (a non-empty array of arrays of exactly `cellsPerPage` cells),
and otherwise — absent slot, unparseable content, or failed shape check —
returns exactly one blank page; the result always passes the shape check,
so restore never fails outward. -/
theorem initPages_restores_valid_or_blank (input : Option (Option Json)) :
    (∀ j, input = some (some j) → isValidSaved j = true → initPages input = j) ∧
    ((∀ j, input = some (some j) → isValidSaved j = false) →
      initPages input = blankDocJson) ∧
    isValidSaved (initPages input) = true := by
  have hblank : isValidSaved blankDocJson = true := by
    simp [isValidSaved, blankDocJson, isPageArray, cellsPerPage]
  refine ⟨?_, ?_, ?_⟩
  · rintro j rfl hj
    simp [initPages, hj]
  · intro h
    match input with
    | none => rfl
    | some none => rfl
    | some (some j) =>
      have hj := h j rfl
      simp [initPages, hj]
  · match input with
    | none => exact hblank
    | some none => exact hblank
    | some (some j) =>
      by_cases hj : isValidSaved j = true
      · simp [initPages, hj]
      · simp only [Bool.not_eq_true] at hj
        simpa [initPages, hj] using hblank

theorem initPages_restores_valid_or_blank_witness :
    initPages (some (some blankDocJson)) = blankDocJson :=
  (initPages_restores_valid_or_blank (some (some blankDocJson))).1
    blankDocJson rfl
    (by simp [isValidSaved, blankDocJson, isPageArray, cellsPerPage])

/-- A persisted value of 6 pages of `cellsPerPage` empty-string cells. -/
def sixPageDoc : Json :=
  .arr (List.replicate 6 (.arr (List.replicate cellsPerPage (.str ""))))

/-- C10: restore does not enforce the 5-page maximum: the 6-page persisted
value `sixPageDoc` passes the shape check and is returned as-is, giving a
document whose page count 6 exceeds `maxPages`. -/
theorem initPages_accepts_over_max :
    initPages (some (some sixPageDoc)) = sixPageDoc ∧
    jsonPageCount sixPageDoc = 6 ∧ maxPages < jsonPageCount sixPageDoc := by
  have hvalid : isValidSaved sixPageDoc = true := by
    simp [isValidSaved, sixPageDoc, isPageArray, cellsPerPage, List.all_eq_true]
  refine ⟨by simp [initPages, hvalid], by simp [jsonPageCount, sixPageDoc], ?_⟩
  simp [jsonPageCount, sixPageDoc, maxPages]

/-! Helper lemmas, shared by several claims. -/

lemma getD_set_self {α : Type} (l : List α) (i : Nat) (a d : α)
    (h : i < l.length) : (l.set i a).getD i d = a := by
  simp [List.getD_eq_getElem?_getD, List.getElem?_set_self, h]

lemma getD_set_ne {α : Type} (l : List α) (i j : Nat) (a d : α)
    (h : j ≠ i) : (l.set i a).getD j d = l.getD j d := by
  simp [List.getD_eq_getElem?_getD, List.getElem?_set_ne (Ne.symm h)]

lemma getD_map_range {α : Type} (f : Nat → α) {n i : Nat} (h : i < n)
    (d : α) : ((List.range n).map f).getD i d = f i := by
  simp [List.getD_eq_getElem?_getD, List.getElem?_map, List.getElem?_range h]

lemma getD_mem {α : Type} (l : List α) (i : Nat) (d : α) (h : i < l.length) :
    l.getD i d ∈ l := by
  rw [List.getD_eq_getElem?_getD, List.getElem?_eq_getElem h]
  exact List.getElem_mem h

lemma blankPage_length : blankPage.length = cellsPerPage := by
  simp [blankPage]

lemma ValidDoc_single_blank : ValidDoc [blankPage] := by
  refine ⟨by simp, by simp [maxPages], ?_⟩
  intro p hp
  rw [List.mem_singleton] at hp
  subst hp
  exact blankPage_length

lemma removePage_confirm_eq (pages : List (List String)) (i : Nat)
    (hi : i < pages.length) :
    removePage pages i true =
      if pages.length = 1 then [blankPage] else pages.eraseIdx i := by
  unfold removePage
  rw [if_pos rfl]
  have hlen : (pages.take i ++ pages.drop (i + 1)).length = pages.length - 1 := by
    simp [List.length_take, List.length_drop]
    omega
  by_cases h1 : pages.length = 1
  · have hnil : pages.take i ++ pages.drop (i + 1) = [] := by
      apply List.eq_nil_of_length_eq_zero
      omega
    simp [hnil, h1]
  · have hne : pages.take i ++ pages.drop (i + 1) ≠ [] := by
      intro hc
      rw [hc] at hlen
      simp at hlen
      omega
    rw [if_neg h1]
    simp only [List.isEmpty_iff]
    rw [if_neg hne, List.eraseIdx_eq_take_drop_succ]

/-- C3: adding a page to a full document (already `maxPages` pages) leaves
the pages unchanged and signals rejection; with fewer than `maxPages`
pages it appends exactly one blank page after the existing ones. -/
theorem addPage_appends_or_rejects (pages : List (List String)) :
    (pages.length = maxPages → addPage pages = (pages, true)) ∧
    (pages.length < maxPages →
      addPage pages = (pages ++ [blankPage], false)) := by
  constructor
  · intro h
    unfold addPage
    rw [if_pos (le_of_eq h.symm)]
  · intro h
    unfold addPage
    rw [if_neg (by omega)]

theorem addPage_appends_or_rejects_witness :
    addPage [blankPage] = ([blankPage] ++ [blankPage], false) :=
  (addPage_appends_or_rejects [blankPage]).2 (by decide)

/-- C4: confirmed removal of an in-range page deletes exactly that page,
keeping all other pages in order; when the document had exactly one page
(so removal would leave zero pages) the result is one blank page instead. -/
theorem removePage_removes_or_blanks (pages : List (List String)) (i : Nat)
    (hi : i < pages.length) :
    (pages.length = 1 → removePage pages i true = [blankPage]) ∧
    (1 < pages.length → removePage pages i true = pages.eraseIdx i) := by
  rw [removePage_confirm_eq pages i hi]
  constructor
  · intro h
    rw [if_pos h]
  · intro h
    rw [if_neg (by omega)]

theorem removePage_removes_or_blanks_witness :
    removePage [blankPage] 0 true = [blankPage] :=
  (removePage_removes_or_blanks [blankPage] 0 (by decide)).1 (by decide)

/-- C6: editing an in-range cell stores the new value at exactly that cell;
the page count, every other page, and every other cell of the target page
are unchanged. -/
theorem editCell_updates_only_target (pages : List (List String))
    (pi ci : Nat) (v : String) (hp : pi < pages.length)
    (hc : ci < (pages.getD pi []).length) :
    (editCell pages pi ci v).length = pages.length ∧
    ((editCell pages pi ci v).getD pi []).getD ci "" = v ∧
    (∀ pj, pj ≠ pi →
      (editCell pages pi ci v).getD pj [] = pages.getD pj []) ∧
    (∀ cj, cj ≠ ci →
      ((editCell pages pi ci v).getD pi []).getD cj "" =
        (pages.getD pi []).getD cj "") := by
  unfold editCell
  refine ⟨by simp, ?_, ?_, ?_⟩
  · rw [getD_set_self pages pi _ [] hp]
    exact getD_set_self _ ci v "" hc
  · intro pj hpj
    exact getD_set_ne pages pi pj _ [] hpj
  · intro cj hcj
    rw [getD_set_self pages pi _ [] hp]
    exact getD_set_ne _ ci cj v "" hcj

theorem editCell_updates_only_target_witness :
    ((editCell [blankPage] 0 0 "A").getD 0 []).getD 0 "" = "A" :=
  (editCell_updates_only_target [blankPage] 0 0 "A" (by decide)
    (by decide)).2.1

/-- C7: editing the same in-range cell twice with the same value yields the
same document as editing it once. -/
theorem editCell_idempotent (pages : List (List String)) (pi ci : Nat)
    (v : String) (hp : pi < pages.length)
    (_hc : ci < (pages.getD pi []).length) :
    editCell (editCell pages pi ci v) pi ci v = editCell pages pi ci v := by
  unfold editCell
  rw [getD_set_self pages pi _ [] hp, List.set_set, List.set_set]

theorem editCell_idempotent_witness :
    editCell (editCell [blankPage] 0 0 "A") 0 0 "A" =
      editCell [blankPage] 0 0 "A" :=
  editCell_idempotent [blankPage] 0 0 "A" (by decide) (by decide)

/-- C8: on the confirm key at an in-range cell reference, the next
reference advances the cell index modulo `cellsPerPage` and increments the
page index exactly when the cell index was the last one (99); the pages
state is never changed (no page is created), and when the computed page
index is not an existing page the focus move is a no-op. -/
theorem handleKeyDown_next_ref (pi ci : Nat) (hc : ci < cellsPerPage) :
    (nextCellRef pi ci).2 = (ci + 1) % cellsPerPage ∧
    (ci = cellsPerPage - 1 → (nextCellRef pi ci).1 = pi + 1) ∧
    (ci ≠ cellsPerPage - 1 → (nextCellRef pi ci).1 = pi) ∧
    (∀ pages k, (handleKeyDown pages pi ci k).1 = pages) ∧
    (∀ pages, pages.length ≤ (nextCellRef pi ci).1 →
      (handleKeyDown pages pi ci true).2 = none) := by
  unfold cellsPerPage at hc
  refine ⟨rfl, ?_, ?_, ?_, ?_⟩
  · intro h
    unfold cellsPerPage at h
    subst h
    unfold nextCellRef cellsPerPage
    norm_num
  · intro h
    unfold cellsPerPage at h
    unfold nextCellRef cellsPerPage
    have h0 : (ci + 1) / 100 = 0 := by omega
    simp [h0]
  · intro pages k
    unfold handleKeyDown
    cases k <;> simp
  · intro pages h
    unfold handleKeyDown
    simp [Nat.not_lt.mpr h]

theorem handleKeyDown_next_ref_witness :
    (nextCellRef 3 99).1 = 3 + 1 :=
  (handleKeyDown_next_ref 3 99 (by decide)).2.1 (by decide)

/-- C9: the export action never mutates the pages: whether rendering
succeeds or fails, the pages component of the resulting state equals the
input pages, and the output is either the rendered document or nothing. -/
theorem downloadPDF_preserves_pages (pages : List (List String))
    (renderOk : Bool) :
    (downloadPDF pages renderOk).1 = pages ∧
    ((downloadPDF pages renderOk).2 = some (MantraPDF pages) ∨
      (downloadPDF pages renderOk).2 = none) := by
  cases renderOk <;> simp [downloadPDF]

/-- C5: every mutation operation preserves the Document shape invariant
(1 to `maxPages` pages, each of exactly `cellsPerPage` cells): in-range
cell edits, adding a page (whether accepted or rejected), removing an
in-range page (whether confirmed or declined), and reset. -/
theorem mutations_preserve_ValidDoc (pages : List (List String))
    (h : ValidDoc pages) :
    (∀ pi ci v, pi < pages.length → ci < cellsPerPage →
      ValidDoc (editCell pages pi ci v)) ∧
    ValidDoc (addPage pages).1 ∧
    (∀ i k, i < pages.length → ValidDoc (removePage pages i k)) ∧
    (∀ k, ValidDoc (resetAll pages k)) := by
  obtain ⟨hlo, hhi, hcells⟩ := h
  refine ⟨?_, ?_, ?_, ?_⟩
  · intro pi ci v hpi _
    unfold editCell
    refine ⟨by simpa using hlo, by simpa using hhi, ?_⟩
    intro p hp
    rcases List.mem_or_eq_of_mem_set hp with hmem | rfl
    · exact hcells p hmem
    · rw [List.length_set]
      exact hcells _ (getD_mem pages pi [] hpi)
  · unfold addPage
    by_cases hm : maxPages ≤ pages.length
    · rw [if_pos hm]
      exact ⟨hlo, hhi, hcells⟩
    · rw [if_neg hm]
      refine ⟨by simp, by simp; omega, ?_⟩
      intro p hp
      rcases List.mem_append.mp hp with hmem | hmem
      · exact hcells p hmem
      · rw [List.mem_singleton] at hmem
        subst hmem
        exact blankPage_length
  · intro i k hi
    cases k
    · exact ⟨hlo, hhi, hcells⟩
    · rw [removePage_confirm_eq pages i hi]
      by_cases h1 : pages.length = 1
      · rw [if_pos h1]
        exact ValidDoc_single_blank
      · rw [if_neg h1]
        refine ⟨?_, ?_, ?_⟩
        · rw [List.length_eraseIdx_of_lt hi]
          omega
        · rw [List.length_eraseIdx_of_lt hi]
          omega
        · intro p hp
          exact hcells p (List.mem_of_mem_eraseIdx hp)
  · intro k
    cases k
    · exact ⟨hlo, hhi, hcells⟩
    · exact ValidDoc_single_blank

theorem mutations_preserve_ValidDoc_witness :
    ValidDoc (resetAll [blankPage] true) :=
  (mutations_preserve_ValidDoc [blankPage] (by decide)).2.2.2 true

/-- C2: the renderer emits exactly one print page per document page, in
order; print page `i` carries the fixed header label, the 1-based page
number `i + 1`, and a grid of 20 rows of `columns` (5) cells — 100 slots
in all — where the slot at row `r`, column `c` reads the in-range stored
cell `r * columns + c` and shows its text, or a single space when that
text is the empty string. -/
theorem MantraPDF_renders_each_page (pages : List (List String))
    (h : ∀ p ∈ pages, p.length = cellsPerPage) :
    (MantraPDF pages).length = pages.length ∧
    ∀ i, i < pages.length →
      ((MantraPDF pages).getD i noPage).header = headerLabel ∧
      ((MantraPDF pages).getD i noPage).pageNumber = i + 1 ∧
      ((MantraPDF pages).getD i noPage).grid.length = 20 ∧
      (∀ row ∈ ((MantraPDF pages).getD i noPage).grid,
        row.length = columns) ∧
      ((MantraPDF pages).getD i noPage).grid.flatten.length = cellsPerPage ∧
      ∀ r c, r < 20 → c < columns →
        r * columns + c < (pages.getD i []).length ∧
        (((MantraPDF pages).getD i noPage).grid.getD r []).getD c "" =
          (if (pages.getD i []).getD (r * columns + c) "" = "" then " "
            else (pages.getD i []).getD (r * columns + c) "") := by
  refine ⟨by simp [MantraPDF], ?_⟩
  intro i hi
  have hpage : (MantraPDF pages).getD i noPage =
      renderPage (pages.getD i []) i := getD_map_range _ hi noPage
  rw [hpage]
  unfold renderPage
  refine ⟨rfl, rfl, by simp, ?_, ?_, ?_⟩
  · intro row hrow
    rw [List.mem_map] at hrow
    obtain ⟨r, _, rfl⟩ := hrow
    simp [columns]
  · rw [List.length_flatten]
    simp only [List.map_map, Function.comp_def, List.length_map,
      List.length_range]
    unfold cellsPerPage
    decide
  · intro r c hr hcc
    have hc5 : c < 5 := by simpa [columns] using hcc
    constructor
    · have hplen : (pages.getD i []).length = cellsPerPage :=
        h _ (getD_mem pages i [] hi)
      rw [hplen]
      unfold cellsPerPage columns at *
      omega
    · rw [getD_map_range _ hr ([] : List String), getD_map_range _ hc5 ""]
      simp [renderCellText, columns]

theorem MantraPDF_renders_each_page_witness :
    (MantraPDF [blankPage]).length = [blankPage].length :=
  (MantraPDF_renders_each_page [blankPage] (by decide)).1

end MantraLekhan
